import Mathlib

/-!
Shallow embedding of the FriendlyChat web client (src/web-start/src/index.js).

The embedding covers:
* the message data model (documents of the `messages` Firestore collection);
* the DOM message list maintained by `createAndInsertMessage`,
  `displayMessage` and `deleteMessage`;
* the descending-timestamp store queries (`getFirstMessage`,
  `getPreviousFiveMessages`, `noMessages`, `noFavoriteMessages`, the
  favorites filter query);
* the pagination operation `loadPreviousFiveMessages` together with the
  module-level `arrayLoadedMessages` history;
* the favorites projection (`displayMessages`, `highlightMessage`,
  the module-level `displayFavorites` flag);
* the destructive operation `deleteAllExceptFavorites`;
* the live snapshot listener of `loadMessages`, modelled as a stream of
  added/modified/removed deltas applied by `integrateLiveDelta`.

Modelling conventions: the remote store is a list of documents given in the
order returned by the `orderBy('timestamp', 'desc')` query (newest first,
ties resolved by the query's implicit document-id ordering); the rendered
DOM children of `messageListElement` are a list in visual top-to-bottom
order; machine timestamps are natural numbers of milliseconds; a JS field
that may be `undefined` is an `Option`; fire-and-forget remote writes
followed by reads on the same client are given their sequential semantics
(the read sees the write), matching latency compensation of the SDK.
-/

/-- Fields of a document of the `messages` collection, as written by
`saveMessage` / `saveImageMessage` and read back by the query call sites.
`none` models a field that is absent (`undefined`) on the document; in
particular `favorite := none` is a document carrying no `favorite` field at
all, and `timestamp := none` is a not-yet-assigned server timestamp. -/
structure MessageData where
  name : String
  text : Option String
  profilePicUrl : Option String
  imageUrl : Option String
  timestamp : Option Nat
  favorite : Option Bool
  storageUri : Option String
deriving DecidableEq

/-- A document of the `messages` collection: Firestore identifier plus data. -/
structure StoredDoc where
  id : String
  data : MessageData
deriving DecidableEq

/-- JS truthiness of the value of the `favorite` field (`undefined` and
`false` are falsy, `true` is truthy).  Because the field is modelled as
`Option Bool`, this coincides with the typed `where("favorite", "==", true)`
match used by the favorites queries. -/
def favTruthy : Option Bool → Bool
  | some true => true
  | _ => false

/-- The `where("favorite", "==", true), orderBy('timestamp', 'desc')` query
used by `displayFavoritesMessages` and `noFavoriteMessages`: the favorited
documents of the store in descending order. -/
def favoriteDocs (store : List StoredDoc) : List StoredDoc :=
  store.filter (fun d => favTruthy d.data.favorite)

/-- `noFavoriteMessages` (index.js line 477): true when the favorites query
returns an empty snapshot. -/
def noFavoriteMessages (store : List StoredDoc) : Bool :=
  (favoriteDocs store).isEmpty

/-- `noMessages` (index.js line 542): true when the all-messages query
returns an empty snapshot. -/
def noMessages (store : List StoredDoc) : Bool :=
  store.isEmpty

/-- JS array access `arr[arr.length - 1]` used for the pagination cursor:
the last element of a list, `none` on the empty list. -/
def lastElem {α : Type} : List α → Option α
  | [] => none
  | [a] => some a
  | _ :: b :: rest => lastElem (b :: rest)

/-- Firestore `startAfter(docSnapshot)` on the descending query: the suffix
of the query result strictly after the cursor document's position. -/
def startAfterDoc (cursorId : String) : List StoredDoc → List StoredDoc
  | [] => []
  | d :: rest => if d.id = cursorId then rest else startAfterDoc cursorId rest

/-- `getFirstMessage` (index.js line 210): last document of the
`orderBy desc, limit(3)` query, i.e. the message shown at the very top of
the chat when only the three most recent messages are displayed. -/
def getFirstMessage (store : List StoredDoc) : Option StoredDoc :=
  lastElem (store.take 3)

/-- `getPreviousFiveMessages` (index.js line 223): the
`orderBy desc, startAfter(firstMessageChat), limit(5)` query, returning up
to five documents strictly older than the cursor, newest first. -/
def getPreviousFiveMessages (firstMessageChat : StoredDoc) (store : List StoredDoc) :
    List StoredDoc :=
  (startAfterDoc firstMessageChat.id store).take 5

/-- One rendered message entry: the DOM child of `messageListElement`
produced by `createAndInsertMessage` and filled in by `displayMessage`.
`tsAttr` is the `timestamp` attribute (`none` models a missing attribute);
`favoriteStar` tells whether the star icon of the favorite button is
filled (`fa fa-star`) rather than outlined (`fa fa-star-o`). -/
structure RenderedEntry where
  id : String
  tsAttr : Option Nat
  name : String
  messageText : Option String
  messageImageUrl : Option String
  picUrl : Option String
  favoriteStar : Bool
deriving DecidableEq

/-- The fresh div built from `MESSAGE_TEMPLATE` by `createAndInsertMessage`
before `displayMessage` fills in the content: id and timestamp attribute
set, everything else empty, outlined star. -/
def newMessageDiv (id : String) (ts : Nat) : RenderedEntry :=
  { id := id, tsAttr := some ts, name := "", messageText := none,
    messageImageUrl := none, picUrl := none, favoriteStar := false }

/-- The `while (messageListNode)` walk of `createAndInsertMessage`
(index.js lines 832-850): scan the children top to bottom; a scanned child
with a falsy `timestamp` attribute raises; stop at the first child whose
attribute exceeds the new timestamp and insert before it; reaching the end
of the list appends (insertBefore with a null reference node). -/
def insertWalk (div : RenderedEntry) (ts : Nat) :
    List RenderedEntry → Except String (List RenderedEntry)
  | [] => .ok [div]
  | e :: rest =>
    match e.tsAttr with
    | none => .error ("Child " ++ e.id ++ " has no timestamp attribute")
    | some t =>
      if ts < t then .ok (div :: e :: rest)
      else
        match insertWalk div ts rest with
        | .error msg => .error msg
        | .ok tail => .ok (e :: tail)

/-- `createAndInsertMessage` (index.js line 810): build the new div, give it
the record's timestamp (falling back to `Date.now()` when the server
timestamp is still unassigned), append when the list is empty, otherwise
insert at the position computed by the timestamp walk. -/
def createAndInsertMessage (id : String) (timestamp : Option Nat) (now : Nat)
    (entries : List RenderedEntry) : Except String (List RenderedEntry) :=
  let ts := match timestamp with
    | some t => t
    | none => now
  let div := newMessageDiv id ts
  match entries with
  | [] => .ok [div]
  | _ :: _ => insertWalk div ts entries

/-- Mutate the first entry with the given id, as `document.getElementById`
resolves to the first matching element in document order. -/
def updateFirst (id : String) (f : RenderedEntry → RenderedEntry) :
    List RenderedEntry → List RenderedEntry
  | [] => []
  | e :: rest => if e.id = id then f e :: rest else e :: updateFirst id f rest

/-- The content mutations of `displayMessage` on the (existing or fresh)
div: profile picture when provided, author name, body text (else image,
else leave content), and filling the star icon when the record's favorite
field is truthy. -/
def updateContent (name : String) (text picUrl imageUrl : Option String)
    (favorite : Option Bool) (e : RenderedEntry) : RenderedEntry :=
  let e1 := match picUrl with
    | some p => { e with picUrl := some p }
    | none => e
  let e2 := { e1 with name := name }
  let e3 := match text with
    | some t => { e2 with messageText := some t, messageImageUrl := none }
    | none =>
      match imageUrl with
      | some u => { e2 with messageText := none, messageImageUrl := some u }
      | none => e2
  if favTruthy favorite then { e3 with favoriteStar := true } else e3

/-- `deleteMessage` (index.js line 769): remove the element with the given
id from the UI when it exists, otherwise do nothing. -/
def deleteMessage (id : String) : List RenderedEntry → List RenderedEntry
  | [] => []
  | e :: rest => if e.id = id then rest else e :: deleteMessage id rest

/-- `displayMessage` (index.js line 857): reuse the already-rendered div
for the id when present (`document.getElementById(id)`), otherwise create
and insert a new one, then apply the content mutations to that div. -/
def displayMessage (now : Nat) (id : String) (timestamp : Option Nat) (name : String)
    (text picUrl imageUrl : Option String) (favorite : Option Bool)
    (rendered : List RenderedEntry) : Except String (List RenderedEntry) :=
  if rendered.any (fun e => e.id == id) then
    .ok (updateFirst id (updateContent name text picUrl imageUrl favorite) rendered)
  else
    match createAndInsertMessage id timestamp now rendered with
    | .error msg => .error msg
    | .ok r => .ok (updateFirst id (updateContent name text picUrl imageUrl favorite) r)

/-- The whole mutable client state: signed-in flag, the remote store in
descending query order, the rendered list, and the two module-level
variables `arrayLoadedMessages` and `displayFavorites`. -/
structure AppState where
  signedIn : Bool
  store : List StoredDoc
  rendered : List RenderedEntry
  arrayLoadedMessages : List StoredDoc
  displayFavorites : Bool
deriving DecidableEq

/-- The `displayMessage(currentDoc.id, currentDoc.data().timestamp, ...)`
call shape shared by every query-result call site. -/
def displayMessageDoc (now : Nat) (d : StoredDoc) (rendered : List RenderedEntry) :
    Except String (List RenderedEntry) :=
  displayMessage now d.id d.data.timestamp d.data.name d.data.text
    d.data.profilePicUrl d.data.imageUrl d.data.favorite rendered

/-- A `querySnapshot.forEach` loop calling `displayMessage` on each document
in query order, as in `displayFavoritesMessages` / `displayAllMessages`. -/
def renderDocs (now : Nat) : List StoredDoc → List RenderedEntry →
    Except String (List RenderedEntry)
  | [], r => .ok r
  | d :: rest, r =>
    match displayMessageDoc now d r with
    | .error msg => .error msg
    | .ok r1 => renderDocs now rest r1

/-- `deleteAllDocsFromGUI` (index.js line 466): delete from the UI every
document returned by the all-messages query. -/
def deleteAllDocsFromGUI (store : List StoredDoc) (rendered : List RenderedEntry) :
    List RenderedEntry :=
  store.foldl (fun r d => deleteMessage d.id r) rendered

/-- The cursor selection of `loadPreviousFiveMessages` (index.js lines
161-181): when no previous page was ever loaded the cursor is the top
message of the initial three-message window, otherwise the last element of
`arrayLoadedMessages`.  Both branches produce a document whenever the
guards of the caller passed; `none` is the unreachable fallback. -/
def currentCursor (s : AppState) : Option StoredDoc :=
  if s.arrayLoadedMessages.length = 0 then getFirstMessage s.store
  else lastElem s.arrayLoadedMessages

/-- The page of up to five older records fetched by one
`loadPreviousFiveMessages` call, in the order the `for` loop of index.js
lines 194-201 processes it (query order: descending, newest first). -/
def fetchedPage (s : AppState) : List StoredDoc :=
  match currentCursor s with
  | none => []
  | some c => getPreviousFiveMessages c s.store

/-- The `for` loop of `loadPreviousFiveMessages` (index.js lines 194-201):
render each fetched document via `displayMessage` and push it onto
`arrayLoadedMessages`, in the order of the fetched array. -/
def integratePage (now : Nat) : List StoredDoc → AppState → Except String AppState
  | [], s => .ok s
  | d :: rest, s =>
    match displayMessageDoc now d s.rendered with
    | .error msg => .error msg
    | .ok r1 =>
      integratePage now rest
        { s with rendered := r1, arrayLoadedMessages := s.arrayLoadedMessages ++ [d] }

/-- `loadPreviousFiveMessages` (index.js line 142): guard on the signed-in
session, guard on an empty store (alert and return), then fetch the page
below the current cursor and integrate it. -/
def loadPreviousFiveMessages (now : Nat) (s : AppState) : Except String AppState :=
  if !s.signedIn then .ok s
  else if noMessages s.store then .ok s
  else integratePage now (fetchedPage s) s

/-- `updateDoc(docReference, .favorite := v.)` on the `messages`
collection: update the favorite field of the document with the given id. -/
def updateFavoriteInStore (store : List StoredDoc) (id : String) (v : Bool) :
    List StoredDoc :=
  store.map fun d =>
    if d.id = id then { d with data := { d.data with favorite := some v } } else d

/-- `displayMessages` (index.js line 404), the projection toggle: guard on
the session, guard on an empty favorites query (alert and return), then
clear the GUI and render either only the favorites (setting
`displayFavorites := true`) or every message (setting it to `false`). -/
def displayMessages (now : Nat) (s : AppState) : Except String AppState :=
  if !s.signedIn then .ok s
  else if noFavoriteMessages s.store then .ok s
  else
    let r := deleteAllDocsFromGUI s.store s.rendered
    if !s.displayFavorites then
      match renderDocs now (favoriteDocs s.store) r with
      | .error msg => .error msg
      | .ok r1 => .ok { s with rendered := r1, displayFavorites := true }
    else
      match renderDocs now s.store r with
      | .error msg => .error msg
      | .ok r1 => .ok { s with rendered := r1, displayFavorites := false }

/-- `highlightMessage` (index.js line 321), the per-record favorite toggle:
guard on the session, read the document snapshot, then either set the
favorite flag (filling the star) or clear it (outlining the star); in the
latter case, while the favorites projection is shown, clear the GUI,
re-render the favorites query, and when no favorited message remains render
every message.  The `displayFavorites` variable itself is never assigned
here.  A click for a document id absent from the store would fault in JS on
`docSnap.data()`, modelled as an error. -/
def highlightMessage (now : Nat) (messageId : String) (s : AppState) :
    Except String AppState :=
  if !s.signedIn then .ok s
  else
    match s.store.find? (fun d => d.id == messageId) with
    | none => .error "document snapshot has no data"
    | some docSnap =>
      if !favTruthy docSnap.data.favorite then
        .ok { s with
          rendered := updateFirst messageId (fun e => { e with favoriteStar := true }) s.rendered,
          store := updateFavoriteInStore s.store messageId true }
      else
        let rendered1 :=
          updateFirst messageId (fun e => { e with favoriteStar := false }) s.rendered
        let store1 := updateFavoriteInStore s.store messageId false
        if s.displayFavorites then
          let r1 := deleteAllDocsFromGUI store1 rendered1
          match renderDocs now (favoriteDocs store1) r1 with
          | .error msg => .error msg
          | .ok r2 =>
            if noFavoriteMessages store1 then
              match renderDocs now store1 r2 with
              | .error msg => .error msg
              | .ok r3 => .ok { s with rendered := r3, store := store1 }
            else .ok { s with rendered := r2, store := store1 }
        else .ok { s with rendered := rendered1, store := store1 }

/-- The `querySnapshot.forEach` loop of `deleteAllExceptFavorites`
(index.js lines 524-538): for every non-favorited document of the
all-messages snapshot, delete it from the UI and from the store. -/
def deleteNonFavorites : List StoredDoc → AppState → AppState
  | [], s => s
  | d :: rest, s =>
    if favTruthy d.data.favorite then deleteNonFavorites rest s
    else
      deleteNonFavorites rest
        { s with rendered := deleteMessage d.id s.rendered,
                 store := s.store.filter (fun x => x.id != d.id) }

/-- `deleteAllExceptFavorites` (index.js line 486): guard on the session,
guard on an empty store (alert and return), show the confirmation prompt
when messages exist but none is favorited, abort when the prompt returns
false, otherwise delete every non-favorited document.  The second component
reports whether the confirmation prompt was shown. -/
def deleteAllExceptFavorites (confirmResult : Bool) (s : AppState) : AppState × Bool :=
  if !s.signedIn then (s, false)
  else if noMessages s.store then (s, false)
  else if !noMessages s.store && noFavoriteMessages s.store then
    if !confirmResult then (s, true)
    else (deleteNonFavorites s.store s, true)
  else (deleteNonFavorites s.store s, false)

/-- One change of the live snapshot of `loadMessages` (index.js lines
118-128): `docChanges()` delivers added, modified and removed deltas. -/
inductive LiveDelta where
  | added (id : String) (data : MessageData)
  | modified (id : String) (data : MessageData)
  | removed (id : String)
deriving DecidableEq

/-- The body of the `docChanges().forEach` callback of `loadMessages`:
a removed change deletes the message from the UI, any other change
displays (upserts) it. -/
def integrateLiveDelta (now : Nat) (rendered : List RenderedEntry) :
    LiveDelta → Except String (List RenderedEntry)
  | .removed id => .ok (deleteMessage id rendered)
  | .added id m =>
    displayMessage now id m.timestamp m.name m.text m.profilePicUrl m.imageUrl
      m.favorite rendered
  | .modified id m =>
    displayMessage now id m.timestamp m.name m.text m.profilePicUrl m.imageUrl
      m.favorite rendered

/-- A whole sequence of live deltas applied in arrival order. -/
def integrateDeltas (now : Nat) (rendered : List RenderedEntry) :
    List LiveDelta → Except String (List RenderedEntry)
  | [] => .ok rendered
  | d :: rest =>
    match integrateLiveDelta now rendered d with
    | .error msg => .error msg
    | .ok r1 => integrateDeltas now r1 rest

/-- `LOADING_IMAGE_URL` (index.js line 766). -/
def LOADING_IMAGE_URL : String := "https://www.google.com/images/spin-32.gif?a"

/-- The document fields written by `saveMessage` (index.js lines 100-106):
name, text, profile picture, server timestamp, and `favorite: false`. -/
def saveMessageData (userName picUrl messageText : String) (serverTs : Nat) :
    MessageData :=
  { name := userName, text := some messageText, profilePicUrl := some picUrl,
    imageUrl := none, timestamp := some serverTs, favorite := some false,
    storageUri := none }

/-- The document fields written by step 1 of `saveImageMessage` (index.js
lines 585-590): name, loading-icon image URL, profile picture and server
timestamp — no `favorite` field is written. -/
def saveImageMessageData (userName picUrl : String) (serverTs : Nat) : MessageData :=
  { name := userName, text := none, profilePicUrl := some picUrl,
    imageUrl := some LOADING_IMAGE_URL, timestamp := some serverTs,
    favorite := none, storageUri := none }

/-- The document after step 4 of `saveImageMessage` (index.js lines
601-604): `updateDoc` fills in the public image URL and the storage path,
touching no other field. -/
def saveImageMessageFinalData (userName picUrl publicImageUrl storagePath : String)
    (serverTs : Nat) : MessageData :=
  { saveImageMessageData userName picUrl serverTs with
    imageUrl := some publicImageUrl, storageUri := some storagePath }

/-- Identifiers of the rendered entries, in visual order. -/
def entryIds (l : List RenderedEntry) : List String := l.map RenderedEntry.id

/-- Identifiers of a list of store documents. -/
def docIds (l : List StoredDoc) : List String := l.map StoredDoc.id

/-- Numeric value of the timestamp attribute of a rendered entry (the JS
string-to-number coercion of the comparison site; missing attribute reads
as 0 but is only ever compared under an is-present hypothesis). -/
def entryTs (e : RenderedEntry) : Nat := e.tsAttr.getD 0

/-- Numeric timestamp of a store document (documents produced by the server
carry one; `getD 0` is only used under an is-assigned hypothesis). -/
def docTs (d : StoredDoc) : Nat := d.data.timestamp.getD 0

/-- Every rendered entry carries its timestamp attribute. -/
def allTsSome (l : List RenderedEntry) : Prop := ∀ e ∈ l, e.tsAttr.isSome = true

/-- The rendered list is in ascending visual order (oldest at the top). -/
def renderedAscending (l : List RenderedEntry) : Prop :=
  l.Pairwise fun a b => entryTs a ≤ entryTs b

/-- A document list runs oldest-to-newest (ascending timestamps). -/
def pageOldestToNewest (docs : List StoredDoc) : Prop :=
  docs.Pairwise fun a b => docTs a ≤ docTs b

/-- A document list runs newest-to-oldest (descending timestamps). -/
def pageNewestToOldest (docs : List StoredDoc) : Prop :=
  docs.Pairwise fun a b => docTs b ≤ docTs a

/-- Every document of the list carries an assigned server timestamp. -/
def allDocTsSome (l : List StoredDoc) : Prop := ∀ d ∈ l, d.data.timestamp.isSome = true

/-- Example document builder used by the concrete scenarios below. -/
def mkDoc (id : String) (ts : Nat) (fav : Option Bool) : StoredDoc :=
  { id := id,
    data := { name := "user", text := some "hola", profilePicUrl := some "pic",
              imageUrl := none, timestamp := some ts, favorite := fav,
              storageUri := none } }

/-- A store of five messages in descending query order. -/
def exStoreFive : List StoredDoc :=
  [mkDoc "m1" 100 (some false), mkDoc "m2" 90 (some false),
   mkDoc "m3" 80 (some false), mkDoc "m4" 70 (some false),
   mkDoc "m5" 60 (some false)]

/-- Initial state over `exStoreFive`: signed in, nothing rendered yet, no
previous page loaded, favorites projection off. -/
def exStateFive : AppState :=
  { signedIn := true, store := exStoreFive, rendered := [],
    arrayLoadedMessages := [], displayFavorites := false }

/-- The rendered entry of the single favorited message of the favorites
projection scenarios. -/
def exFavEntry : RenderedEntry :=
  { id := "m1", tsAttr := some 100, name := "user", messageText := some "hola",
    messageImageUrl := none, picUrl := some "pic", favoriteStar := true }

/-- Favorites projection active, exactly one message and it is favorited. -/
def exFavState : AppState :=
  { signedIn := true, store := [mkDoc "m1" 100 (some true)],
    rendered := [exFavEntry], arrayLoadedMessages := [], displayFavorites := true }

/-- Favorites projection active, one message exists but none is favorited. -/
def exNoFavState : AppState :=
  { signedIn := true, store := [mkDoc "m1" 100 (some false)],
    rendered := [exFavEntry], arrayLoadedMessages := [], displayFavorites := true }

/-- Favorites projection active with one favorited and one plain message. -/
def exMixedFavState : AppState :=
  { signedIn := true,
    store := [mkDoc "m1" 100 (some true), mkDoc "m2" 90 (some false)],
    rendered := [], arrayLoadedMessages := [], displayFavorites := true }

/-- A healthy rendered entry carrying its timestamp attribute. -/
def exGoodEntry : RenderedEntry :=
  { id := "a", tsAttr := some 100, name := "", messageText := none,
    messageImageUrl := none, picUrl := none, favoriteStar := false }

/-- A corrupt rendered entry missing its timestamp attribute. -/
def exCorruptEntry : RenderedEntry :=
  { id := "b", tsAttr := none, name := "", messageText := none,
    messageImageUrl := none, picUrl := none, favoriteStar := false }

instance (l : List RenderedEntry) : Decidable (allTsSome l) :=
  List.decidableBAll _ l

instance (l : List StoredDoc) : Decidable (allDocTsSome l) :=
  List.decidableBAll _ l

instance (l : List RenderedEntry) : Decidable (renderedAscending l) :=
  inferInstanceAs (Decidable (l.Pairwise fun a b => entryTs a ≤ entryTs b))

instance (l : List StoredDoc) : Decidable (pageOldestToNewest l) :=
  inferInstanceAs (Decidable (l.Pairwise fun a b => docTs a ≤ docTs b))

instance (l : List StoredDoc) : Decidable (pageNewestToOldest l) :=
  inferInstanceAs (Decidable (l.Pairwise fun a b => docTs b ≤ docTs a))

/-- Example message data for the live-delta scenarios. -/
def exMsg (ts : Nat) : MessageData :=
  { name := "user", text := some "txt", profilePicUrl := none, imageUrl := none,
    timestamp := some ts, favorite := some false, storageUri := none }

/-- A live-delta sequence exercising insertion, upsert of an existing id and
removal. -/
def exDeltas : List LiveDelta :=
  [.added "m1" (exMsg 100), .added "m2" (exMsg 50),
   .modified "m1" (exMsg 100), .removed "m2"]

/-- The rendered list produced by `exDeltas` from an empty list. -/
def exDeltasResult : List RenderedEntry :=
  [{ id := "m1", tsAttr := some 100, name := "user", messageText := some "txt",
     messageImageUrl := none, picUrl := none, favoriteStar := false }]

theorem entryIds_cons (e : RenderedEntry) (l : List RenderedEntry) :
    entryIds (e :: l) = e.id :: entryIds l := rfl

theorem docIds_cons (d : StoredDoc) (l : List StoredDoc) :
    docIds (d :: l) = d.id :: docIds l := rfl

theorem mem_entryIds {id : String} {l : List RenderedEntry} :
    id ∈ entryIds l ↔ ∃ e ∈ l, e.id = id := by
  simp [entryIds, List.mem_map]

theorem any_id_iff {r : List RenderedEntry} {id : String} :
    (r.any fun e => e.id == id) = true ↔ id ∈ entryIds r := by
  simp [List.any_eq_true, entryIds, List.mem_map]

theorem lastElem_cons_cons {α : Type} (a b : α) (l : List α) :
    lastElem (a :: b :: l) = lastElem (b :: l) := rfl

theorem lastElem_mem {α : Type} : ∀ (l : List α) (c : α), lastElem l = some c → c ∈ l
  | [], _, h => by simp [lastElem] at h
  | [a], c, h => by
      simp only [lastElem, Option.some.injEq] at h
      simp [h]
  | a :: b :: t, c, h => by
      rw [lastElem_cons_cons] at h
      exact List.mem_cons_of_mem a (lastElem_mem (b :: t) c h)

theorem lastElem_isSome {α : Type} : ∀ (l : List α), l ≠ [] → ∃ c, lastElem l = some c
  | [], h => absurd rfl h
  | [a], _ => ⟨a, rfl⟩
  | _ :: b :: t, _ => lastElem_isSome (b :: t) (by simp)

theorem startAfterDoc_sublist (cid : String) (l : List StoredDoc) :
    List.Sublist (startAfterDoc cid l) l := by
  induction l with
  | nil => simp [startAfterDoc]
  | cons a t ih =>
    simp only [startAfterDoc]
    by_cases h : a.id = cid
    · rw [if_pos h]; exact List.sublist_cons_self a t
    · rw [if_neg h]; exact ih.trans (List.sublist_cons_self a t)

theorem startAfterDoc_append (cid : String) (p l : List StoredDoc)
    (h : ∀ x ∈ p, x.id ≠ cid) : startAfterDoc cid (p ++ l) = startAfterDoc cid l := by
  induction p with
  | nil => rfl
  | cons a t ih =>
    rw [List.cons_append]
    simp only [startAfterDoc]
    rw [if_neg (h a (List.mem_cons_self a t))]
    exact ih fun x hx => h x (List.mem_cons_of_mem a hx)

theorem drop_min_length {α : Type} (n : Nat) (l : List α) :
    l.drop (min n l.length) = l.drop n := by
  rcases Nat.le_total n l.length with h | h
  · rw [Nat.min_eq_left h]
  · rw [Nat.min_eq_right h, List.drop_length, List.drop_eq_nil_of_le h]

theorem take_min_length {α : Type} (n : Nat) (l : List α) :
    l.take (min n l.length) = l.take n := by
  rcases Nat.le_total n l.length with h | h
  · rw [Nat.min_eq_left h]
  · rw [Nat.min_eq_right h, List.take_length, List.take_of_length_le h]

theorem startAfter_lastElem_take : ∀ (l : List StoredDoc) (k : Nat) (c : StoredDoc),
    (docIds l).Nodup → lastElem (l.take k) = some c →
    startAfterDoc c.id l = l.drop (min k l.length)
  | [], _, _, _, h => by simp [lastElem] at h
  | _ :: _, 0, _, _, h => by simp [lastElem] at h
  | a :: t, j+1, c, hnd, h => by
    rw [List.take_succ_cons] at h
    have hnd' : (docIds t).Nodup := by
      rw [docIds_cons] at hnd; exact (List.nodup_cons.mp hnd).2
    by_cases htj : t.take j = []
    · rw [htj] at h
      have hca : c = a := by
        simp only [lastElem, Option.some.injEq] at h
        exact h.symm
      subst hca
      have hmin : min j t.length = 0 := by
        rcases List.take_eq_nil_iff.mp htj with h0 | h0
        · simp [h0]
        · simp [h0]
      rw [List.length_cons, Nat.succ_min_succ, hmin]
      simp [startAfterDoc]
    · have hlast : lastElem (a :: t.take j) = lastElem (t.take j) := by
        cases htake : t.take j with
        | nil => exact absurd htake htj
        | cons x xs => rfl
      rw [hlast] at h
      have hct : c ∈ t := List.take_subset j t (lastElem_mem _ _ h)
      have hane : ¬ (a.id = c.id) := by
        intro he
        have h1 : a.id ∉ docIds t := by
          rw [docIds_cons] at hnd; exact (List.nodup_cons.mp hnd).1
        exact h1 (he ▸ List.mem_map_of_mem StoredDoc.id hct)
      have ih := startAfter_lastElem_take t j c hnd' h
      have heq : startAfterDoc c.id (a :: t) = startAfterDoc c.id t := by
        simp only [startAfterDoc]; rw [if_neg hane]
      rw [heq, List.length_cons, Nat.succ_min_succ, List.drop_succ_cons]
      exact ih

theorem updateContent_id (name : String) (text picUrl imageUrl : Option String)
    (favorite : Option Bool) (e : RenderedEntry) :
    (updateContent name text picUrl imageUrl favorite e).id = e.id := by
  unfold updateContent
  cases picUrl <;> cases text <;> cases imageUrl <;> dsimp only [] <;> split <;> rfl

theorem updateContent_tsAttr (name : String) (text picUrl imageUrl : Option String)
    (favorite : Option Bool) (e : RenderedEntry) :
    (updateContent name text picUrl imageUrl favorite e).tsAttr = e.tsAttr := by
  unfold updateContent
  cases picUrl <;> cases text <;> cases imageUrl <;> dsimp only [] <;> split <;> rfl

theorem entryTs_congr {e1 e2 : RenderedEntry} (h : e1.tsAttr = e2.tsAttr) :
    entryTs e1 = entryTs e2 := by
  unfold entryTs; rw [h]

theorem updateFirst_entryIds (id : String) (f : RenderedEntry → RenderedEntry)
    (hf : ∀ e, (f e).id = e.id) :
    ∀ l, entryIds (updateFirst id f l) = entryIds l
  | [] => rfl
  | e :: rest => by
    simp only [updateFirst]
    by_cases h : e.id = id
    · rw [if_pos h, entryIds_cons, entryIds_cons, hf]
    · rw [if_neg h, entryIds_cons, entryIds_cons, updateFirst_entryIds id f hf rest]

theorem updateFirst_mem (id : String) (f : RenderedEntry → RenderedEntry) :
    ∀ l, ∀ x ∈ updateFirst id f l, x ∈ l ∨ ∃ y ∈ l, x = f y
  | [], x, hx => absurd hx (by simp [updateFirst])
  | e :: rest, x, hx => by
    simp only [updateFirst] at hx
    by_cases hid : e.id = id
    · rw [if_pos hid] at hx
      rcases List.mem_cons.mp hx with h1 | h1
      · exact Or.inr ⟨e, List.mem_cons_self _ _, h1⟩
      · exact Or.inl (List.mem_cons_of_mem _ h1)
    · rw [if_neg hid] at hx
      rcases List.mem_cons.mp hx with h1 | h1
      · exact Or.inl (h1 ▸ List.mem_cons_self _ _)
      · rcases updateFirst_mem id f rest x h1 with h2 | ⟨y, hy, hxy⟩
        · exact Or.inl (List.mem_cons_of_mem _ h2)
        · exact Or.inr ⟨y, List.mem_cons_of_mem _ hy, hxy⟩

theorem updateFirst_allTsSome (id : String) (f : RenderedEntry → RenderedEntry)
    (hf : ∀ e, (f e).tsAttr = e.tsAttr) (l : List RenderedEntry)
    (hs : allTsSome l) : allTsSome (updateFirst id f l) := by
  intro x hx
  rcases updateFirst_mem id f l x hx with h1 | ⟨y, hy, hxy⟩
  · exact hs x h1
  · rw [hxy, hf]; exact hs y hy

theorem updateFirst_ascending (id : String) (f : RenderedEntry → RenderedEntry)
    (hf : ∀ e, (f e).tsAttr = e.tsAttr) :
    ∀ l, renderedAscending l → renderedAscending (updateFirst id f l)
  | [], h => h
  | e :: rest, h => by
    have hhead : ∀ b ∈ rest, entryTs e ≤ entryTs b := (List.pairwise_cons.mp h).1
    have htail : renderedAscending rest := (List.pairwise_cons.mp h).2
    simp only [updateFirst]
    by_cases hid : e.id = id
    · rw [if_pos hid]
      refine List.pairwise_cons.mpr ⟨?_, htail⟩
      intro b hb
      rw [entryTs_congr (hf e)]
      exact hhead b hb
    · rw [if_neg hid]
      refine List.pairwise_cons.mpr ⟨?_, updateFirst_ascending id f hf rest htail⟩
      intro b hb
      rcases updateFirst_mem id f rest b hb with h1 | ⟨y, hy, hby⟩
      · exact hhead b h1
      · rw [hby, entryTs_congr (hf y)]; exact hhead y hy

theorem deleteMessage_sublist (id : String) :
    ∀ l, List.Sublist (deleteMessage id l) l
  | [] => List.Sublist.refl []
  | e :: rest => by
    simp only [deleteMessage]
    by_cases h : e.id = id
    · rw [if_pos h]; exact List.sublist_cons_self e rest
    · rw [if_neg h]; exact (deleteMessage_sublist id rest).cons₂ e

theorem allTsSome_sublist {l1 l2 : List RenderedEntry} (h : List.Sublist l1 l2)
    (hs : allTsSome l2) : allTsSome l1 :=
  fun e he => hs e (h.subset he)

theorem renderedAscending_sublist {l1 l2 : List RenderedEntry}
    (h : List.Sublist l1 l2) (ha : renderedAscending l2) : renderedAscending l1 :=
  ha.sublist h

theorem deleteAllDocsFromGUI_sublist :
    ∀ (store : List StoredDoc) (r : List RenderedEntry),
    List.Sublist (deleteAllDocsFromGUI store r) r
  | [], r => List.Sublist.refl r
  | d :: rest, r => by
    have h1 := deleteAllDocsFromGUI_sublist rest (deleteMessage d.id r)
    have h2 : deleteAllDocsFromGUI (d :: rest) r =
        deleteAllDocsFromGUI rest (deleteMessage d.id r) := rfl
    rw [h2]
    exact h1.trans (deleteMessage_sublist d.id r)

theorem insertWalk_ok (div : RenderedEntry) (ts : Nat) (hdiv : div.tsAttr = some ts) :
    ∀ l, allTsSome l →
    ∃ l', insertWalk div ts l = .ok l' ∧
      List.Perm (entryIds l') (div.id :: entryIds l) ∧
      (∀ x ∈ l', x = div ∨ x ∈ l) ∧
      (renderedAscending l → renderedAscending l')
  | [], _ =>
    ⟨[div], rfl, List.Perm.refl _, by simp, fun _ => by simp [renderedAscending]⟩
  | e :: rest, hs => by
    have he : e.tsAttr.isSome = true := hs e (List.mem_cons_self _ _)
    obtain ⟨t, ht⟩ := Option.isSome_iff_exists.mp he
    have hets : entryTs e = t := by unfold entryTs; rw [ht]; rfl
    have hdivts : entryTs div = ts := by unfold entryTs; rw [hdiv]; rfl
    by_cases hlt : ts < t
    · refine ⟨div :: e :: rest, ?_, List.Perm.refl _, ?_, ?_⟩
      · simp only [insertWalk, ht, if_pos hlt]
      · intro x hx
        rcases List.mem_cons.mp hx with h1 | h1
        · exact Or.inl h1
        · exact Or.inr h1
      · intro hasc
        refine List.pairwise_cons.mpr ⟨?_, hasc⟩
        intro b hb
        rcases List.mem_cons.mp hb with h1 | h1
        · subst h1; rw [hdivts, hets]; exact Nat.le_of_lt hlt
        · have hb2 := (List.pairwise_cons.mp hasc).1 b h1
          rw [hdivts]
          exact le_trans (Nat.le_of_lt hlt) (hets ▸ hb2)
    · have hs' : allTsSome rest := fun x hx => hs x (List.mem_cons_of_mem _ hx)
      obtain ⟨tail, htail, hperm, hmem, hasc⟩ := insertWalk_ok div ts hdiv rest hs'
      refine ⟨e :: tail, ?_, ?_, ?_, ?_⟩
      · simp only [insertWalk, ht, if_neg hlt, htail]
      · show List.Perm (e.id :: entryIds tail) (div.id :: e.id :: entryIds rest)
        exact (hperm.cons e.id).trans (List.Perm.swap div.id e.id (entryIds rest))
      · intro x hx
        rcases List.mem_cons.mp hx with h1 | h1
        · exact Or.inr (h1 ▸ List.mem_cons_self _ _)
        · rcases hmem x h1 with h2 | h2
          · exact Or.inl h2
          · exact Or.inr (List.mem_cons_of_mem _ h2)
      · intro hascfull
        have hhead : ∀ b ∈ rest, entryTs e ≤ entryTs b :=
          (List.pairwise_cons.mp hascfull).1
        have htl : renderedAscending rest := (List.pairwise_cons.mp hascfull).2
        refine List.pairwise_cons.mpr ⟨?_, hasc htl⟩
        intro b hb
        rcases hmem b hb with h1 | h1
        · subst h1; rw [hets, hdivts]; exact Nat.le_of_not_lt hlt
        · exact hhead b h1

theorem createAndInsert_eq_insertWalk (id : String) (timestamp : Option Nat)
    (now : Nat) :
    ∀ entries, createAndInsertMessage id timestamp now entries =
      insertWalk (newMessageDiv id (timestamp.getD now)) (timestamp.getD now) entries
  | [] => by cases timestamp <;> rfl
  | _ :: _ => by cases timestamp <;> rfl

theorem displayMessage_ok (now : Nat) (id : String) (timestamp : Option Nat)
    (name : String) (text pic img : Option String) (fav : Option Bool)
    (r : List RenderedEntry) (hs : allTsSome r) :
    ∃ r', displayMessage now id timestamp name text pic img fav r = .ok r' ∧
      allTsSome r' ∧
      List.Perm (entryIds r')
        (if id ∈ entryIds r then entryIds r else id :: entryIds r) ∧
      id ∈ entryIds r' ∧
      (∀ x ∈ entryIds r, x ∈ entryIds r') ∧
      (renderedAscending r → renderedAscending r') := by
  have hfid : ∀ e, (updateContent name text pic img fav e).id = e.id :=
    fun e => updateContent_id name text pic img fav e
  have hfts : ∀ e, (updateContent name text pic img fav e).tsAttr = e.tsAttr :=
    fun e => updateContent_tsAttr name text pic img fav e
  by_cases hmem : id ∈ entryIds r
  · have hany : (r.any fun e => e.id == id) = true := any_id_iff.mpr hmem
    have hids := updateFirst_entryIds id (updateContent name text pic img fav) hfid r
    refine ⟨updateFirst id (updateContent name text pic img fav) r,
      ?_, ?_, ?_, ?_, ?_, ?_⟩
    · simp [displayMessage, hany]
    · exact updateFirst_allTsSome id _ hfts r hs
    · rw [hids, if_pos hmem]
    · rw [hids]; exact hmem
    · intro x hx; rw [hids]; exact hx
    · exact updateFirst_ascending id _ hfts r
  · have hany : (r.any fun e => e.id == id) = false := by
      rw [Bool.eq_false_iff]
      exact fun h => hmem (any_id_iff.mp h)
    obtain ⟨l', hl', hperm, hmeml, hasc⟩ :=
      insertWalk_ok (newMessageDiv id (timestamp.getD now)) (timestamp.getD now) rfl r hs
    have hsl' : allTsSome l' := by
      intro x hx
      rcases hmeml x hx with h1 | h1
      · rw [h1]; rfl
      · exact hs x h1
    have hids := updateFirst_entryIds id (updateContent name text pic img fav) hfid l'
    refine ⟨updateFirst id (updateContent name text pic img fav) l',
      ?_, ?_, ?_, ?_, ?_, ?_⟩
    · simp only [displayMessage, hany, Bool.false_eq_true, if_false]
      rw [createAndInsert_eq_insertWalk, hl']
    · exact updateFirst_allTsSome id _ hfts l' hsl'
    · rw [hids, if_neg hmem]; exact hperm
    · rw [hids]; exact hperm.mem_iff.mpr (List.mem_cons_self _ _)
    · intro x hx
      rw [hids]
      exact hperm.mem_iff.mpr (List.mem_cons_of_mem _ hx)
    · intro h; exact updateFirst_ascending id _ hfts l' (hasc h)

theorem renderDocs_ok (now : Nat) :
    ∀ (docs : List StoredDoc) (r : List RenderedEntry), allTsSome r →
    ∃ r', renderDocs now docs r = .ok r' ∧ allTsSome r' ∧
      (∀ x ∈ entryIds r, x ∈ entryIds r') ∧
      (∀ d ∈ docs, d.id ∈ entryIds r') ∧
      (renderedAscending r → renderedAscending r')
  | [], r, hs => ⟨r, rfl, hs, fun _ hx => hx, by simp, fun h => h⟩
  | d :: rest, r, hs => by
    obtain ⟨r1, hr1eq, hs1, _, hdmem1, hsup1, hasc1⟩ :=
      displayMessage_ok now d.id d.data.timestamp d.data.name d.data.text
        d.data.profilePicUrl d.data.imageUrl d.data.favorite r hs
    obtain ⟨r2, hr2, hs2, hsup2, hdocs2, hasc2⟩ := renderDocs_ok now rest r1 hs1
    refine ⟨r2, ?_, hs2, ?_, ?_, ?_⟩
    · simp only [renderDocs, displayMessageDoc, hr1eq]
      exact hr2
    · intro x hx; exact hsup2 x (hsup1 x hx)
    · intro d' hd'
      rcases List.mem_cons.mp hd' with h1 | h1
      · subst h1; exact hsup2 _ hdmem1
      · exact hdocs2 d' h1
    · intro h; exact hasc2 (hasc1 h)

theorem integratePage_ok (now : Nat) :
    ∀ (docs : List StoredDoc) (s : AppState), allTsSome s.rendered →
    ∃ s', integratePage now docs s = .ok s' ∧
      s'.signedIn = s.signedIn ∧ s'.store = s.store ∧
      s'.displayFavorites = s.displayFavorites ∧
      s'.arrayLoadedMessages = s.arrayLoadedMessages ++ docs ∧
      allTsSome s'.rendered ∧
      (renderedAscending s.rendered → renderedAscending s'.rendered)
  | [], s, hs => ⟨s, rfl, rfl, rfl, rfl, by simp, hs, fun h => h⟩
  | d :: rest, s, hs => by
    obtain ⟨r1, hr1eq, hs1, _, _, _, hasc1⟩ :=
      displayMessage_ok now d.id d.data.timestamp d.data.name d.data.text
        d.data.profilePicUrl d.data.imageUrl d.data.favorite s.rendered hs
    obtain ⟨s', hs', ha, hb, hc, hd, he, hf⟩ :=
      integratePage_ok now rest
        { s with rendered := r1,
                 arrayLoadedMessages := s.arrayLoadedMessages ++ [d] } hs1
    refine ⟨s', ?_, ha, hb, hc, ?_, he, ?_⟩
    · simp only [integratePage, displayMessageDoc, hr1eq]
      exact hs'
    · rw [hd]; simp
    · intro h; exact hf (hasc1 h)

theorem insertWalk_ids (div : RenderedEntry) (ts : Nat) :
    ∀ (l l' : List RenderedEntry), insertWalk div ts l = .ok l' →
      List.Perm (entryIds l') (div.id :: entryIds l)
  | [], l', h => by
    simp only [insertWalk] at h
    injection h with h
    subst h
    exact List.Perm.refl _
  | e :: rest, l', h => by
    cases ht : e.tsAttr with
    | none => simp [insertWalk, ht] at h
    | some t =>
      simp only [insertWalk, ht] at h
      by_cases hlt : ts < t
      · rw [if_pos hlt] at h
        injection h with h
        subst h
        exact List.Perm.refl _
      · rw [if_neg hlt] at h
        cases hw : insertWalk div ts rest with
        | error m => rw [hw] at h; simp at h
        | ok tail =>
          rw [hw] at h
          injection h with h
          subst h
          have ih := insertWalk_ids div ts rest tail hw
          show List.Perm (e.id :: entryIds tail) (div.id :: e.id :: entryIds rest)
          exact (ih.cons e.id).trans (List.Perm.swap div.id e.id (entryIds rest))

theorem displayMessage_ids (now : Nat) (id : String) (timestamp : Option Nat)
    (name : String) (text pic img : Option String) (fav : Option Bool)
    (r r' : List RenderedEntry)
    (h : displayMessage now id timestamp name text pic img fav r = .ok r') :
    List.Perm (entryIds r')
      (if id ∈ entryIds r then entryIds r else id :: entryIds r) := by
  have hfid : ∀ e, (updateContent name text pic img fav e).id = e.id :=
    fun e => updateContent_id name text pic img fav e
  by_cases hmem : id ∈ entryIds r
  · have hany : (r.any fun e => e.id == id) = true := any_id_iff.mpr hmem
    rw [if_pos hmem]
    simp only [displayMessage, hany, if_true] at h
    injection h with h
    subst h
    rw [updateFirst_entryIds id _ hfid r]
  · have hany : (r.any fun e => e.id == id) = false := by
      rw [Bool.eq_false_iff]
      exact fun hh => hmem (any_id_iff.mp hh)
    rw [if_neg hmem]
    simp only [displayMessage, hany, Bool.false_eq_true, if_false] at h
    rw [createAndInsert_eq_insertWalk] at h
    cases hw : insertWalk (newMessageDiv id (timestamp.getD now)) (timestamp.getD now) r with
    | error m => rw [hw] at h; simp at h
    | ok l' =>
      rw [hw] at h
      injection h with h
      subst h
      rw [updateFirst_entryIds id _ hfid l']
      exact insertWalk_ids _ _ r l' hw

theorem deleteMessage_not_mem (id : String) :
    ∀ l, id ∉ entryIds l → deleteMessage id l = l
  | [], _ => rfl
  | e :: rest, h => by
    rw [entryIds_cons] at h
    have h1 : ¬ (e.id = id) := fun he => h (he ▸ List.mem_cons_self _ _)
    have h2 : id ∉ entryIds rest := fun hx => h (List.mem_cons_of_mem _ hx)
    simp only [deleteMessage]
    rw [if_neg h1, deleteMessage_not_mem id rest h2]

theorem deleteMessage_id_not_mem (id : String) :
    ∀ l, (entryIds l).Nodup → id ∉ entryIds (deleteMessage id l)
  | [], _ => by simp [deleteMessage, entryIds]
  | e :: rest, hnd => by
    rw [entryIds_cons] at hnd
    have hh := List.nodup_cons.mp hnd
    simp only [deleteMessage]
    by_cases he : e.id = id
    · rw [if_pos he, ← he]
      exact hh.1
    · rw [if_neg he, entryIds_cons]
      intro hx
      rcases List.mem_cons.mp hx with h1 | h1
      · exact he h1.symm
      · exact deleteMessage_id_not_mem id rest hh.2 h1

theorem insertWalk_append_all_le (div : RenderedEntry) (ts : Nat) :
    ∀ l, (∀ e ∈ l, ∃ t, e.tsAttr = some t ∧ t ≤ ts) →
      insertWalk div ts l = .ok (l ++ [div])
  | [], _ => rfl
  | e :: rest, h => by
    obtain ⟨t, ht, hle⟩ := h e (List.mem_cons_self _ _)
    have hnlt : ¬ ts < t := Nat.not_lt.mpr hle
    have ih := insertWalk_append_all_le div ts rest
      fun x hx => h x (List.mem_cons_of_mem _ hx)
    simp only [insertWalk, ht, if_neg hnlt, ih, List.cons_append]

theorem insertWalk_error_of_corrupt (div : RenderedEntry) (ts : Nat) :
    ∀ (pre : List RenderedEntry) (corrupt : RenderedEntry)
      (post : List RenderedEntry), corrupt.tsAttr = none →
      (∀ e ∈ pre, ∃ t, e.tsAttr = some t ∧ t ≤ ts) →
      ∃ msg, insertWalk div ts (pre ++ corrupt :: post) = .error msg
  | [], corrupt, post, hc, _ => by
    refine ⟨"Child " ++ corrupt.id ++ " has no timestamp attribute", ?_⟩
    simp only [List.nil_append, insertWalk, hc]
  | e :: pre1, corrupt, post, hc, hpre => by
    obtain ⟨t, ht, hle⟩ := hpre e (List.mem_cons_self _ _)
    have hnlt : ¬ ts < t := Nat.not_lt.mpr hle
    obtain ⟨msg, hmsg⟩ := insertWalk_error_of_corrupt div ts pre1 corrupt post hc
      fun x hx => hpre x (List.mem_cons_of_mem _ hx)
    refine ⟨msg, ?_⟩
    simp only [List.cons_append, insertWalk, ht, if_neg hnlt, List.append_eq, hmsg]

/-- C6: when every already-rendered entry has a timestamp attribute that is
strictly below the new record's timestamp (the situation produced by a
sequence of insertions with strictly increasing timestamps), the insertion
walk of `createAndInsertMessage` runs past every existing entry and appends
the new div at the end of the ascending visual sequence. -/
theorem c6_insertion_monotonic (id : String) (ts now : Nat)
    (entries : List RenderedEntry)
    (h : ∀ e ∈ entries, ∃ t, e.tsAttr = some t ∧ t < ts) :
    createAndInsertMessage id (some ts) now entries =
      .ok (entries ++ [newMessageDiv id ts]) := by
  rw [createAndInsert_eq_insertWalk]
  exact insertWalk_append_all_le (newMessageDiv id ts) ts entries
    fun e he => (h e he).elim fun t htl => ⟨t, htl.1, Nat.le_of_lt htl.2⟩

/-- C6 witness: inserting timestamp 200 after an entry with timestamp 100
appends at the end. -/
theorem c6_insertion_monotonic_witness :
    (∀ e ∈ [exGoodEntry], ∃ t, e.tsAttr = some t ∧ t < 200) ∧
    createAndInsertMessage "n" (some 200) 0 [exGoodEntry] =
      .ok ([exGoodEntry] ++ [newMessageDiv "n" 200]) :=
  ⟨fun e he => by
      rw [List.mem_singleton] at he
      subst he
      exact ⟨100, rfl, by decide⟩,
   c6_insertion_monotonic "n" 200 0 [exGoodEntry]
     fun e he => by
       rw [List.mem_singleton] at he
       subst he
       exact ⟨100, rfl, by decide⟩⟩

/-- C7 counterexample: the rendered list holds an entry with no timestamp
marker, yet inserting a record whose position is found before the scan
reaches the corrupt entry succeeds without raising: the walk breaks at the
first entry with a larger timestamp and never examines the corrupt one. -/
theorem c7_counterexample :
    exCorruptEntry.tsAttr = none ∧
    exCorruptEntry ∈ [exGoodEntry, exCorruptEntry] ∧
    createAndInsertMessage "n" (some 50) 0 [exGoodEntry, exCorruptEntry] =
      .ok [newMessageDiv "n" 50, exGoodEntry, exCorruptEntry] :=
  ⟨rfl, List.mem_cons_of_mem _ (List.mem_cons_self _ _), rfl⟩

/-- C7 amended: the insertion-index computation raises an error exactly when
the scan reaches a marker-less entry: if every entry before the corrupt one
has a timestamp attribute not exceeding the new record's timestamp (so the
walk does not break earlier), the computation raises; a corrupt entry lying
past the insertion position is not detected. -/
theorem c7_corruption_detected_when_scanned (id : String) (ts now : Nat)
    (pre post : List RenderedEntry) (corrupt : RenderedEntry)
    (hc : corrupt.tsAttr = none)
    (hpre : ∀ e ∈ pre, ∃ t, e.tsAttr = some t ∧ t ≤ ts) :
    ∃ msg, createAndInsertMessage id (some ts) now (pre ++ corrupt :: post) =
      .error msg := by
  rw [createAndInsert_eq_insertWalk]
  exact insertWalk_error_of_corrupt (newMessageDiv id ts) ts pre corrupt post hc hpre

/-- C7 amended witness: a corrupt entry in scan range raises. -/
theorem c7_corruption_detected_when_scanned_witness :
    exCorruptEntry.tsAttr = none ∧
    (∀ e ∈ [exGoodEntry], ∃ t, e.tsAttr = some t ∧ t ≤ 200) ∧
    ∃ msg, createAndInsertMessage "n" (some 200) 0
      ([exGoodEntry] ++ exCorruptEntry :: []) = .error msg :=
  ⟨rfl,
   fun e he => by
     rw [List.mem_singleton] at he
     subst he
     exact ⟨100, rfl, by decide⟩,
   c7_corruption_detected_when_scanned "n" 200 0 [exGoodEntry] [] exCorruptEntry rfl
     fun e he => by
       rw [List.mem_singleton] at he
       subst he
       exact ⟨100, rfl, by decide⟩⟩

/-- C8: with an authenticated session, a non-empty store and zero favorited
records, `deleteAllExceptFavorites` shows the confirmation prompt, and when
the prompt returns false the operation aborts leaving both the store and
the rendered list untouched. -/
theorem c8_confirm_false_aborts (s : AppState)
    (hsig : s.signedIn = true) (hne : s.store ≠ [])
    (hfav : noFavoriteMessages s.store = true) :
    deleteAllExceptFavorites false s = (s, true) := by
  have hnm : noMessages s.store = false := by
    unfold noMessages
    cases hl : s.store with
    | nil => exact absurd hl hne
    | cons a t => rfl
  simp [deleteAllExceptFavorites, hsig, hnm, hfav]

/-- C8 witness: concrete aborted run. -/
theorem c8_confirm_false_aborts_witness :
    exNoFavState.signedIn = true ∧ exNoFavState.store ≠ [] ∧
    noFavoriteMessages exNoFavState.store = true ∧
    deleteAllExceptFavorites false exNoFavState = (exNoFavState, true) :=
  ⟨rfl, by decide, rfl,
   c8_confirm_false_aborts exNoFavState rfl (by decide) rfl⟩

/-- C9 counterexample: the record created by `saveImageMessage` carries no
`favorite` field at all, in particular not the boolean false the claim
asserts for both creation paths. -/
theorem c9_counterexample :
    (saveImageMessageData "alice" "pic" 7).favorite = none ∧
    (saveImageMessageData "alice" "pic" 7).favorite ≠ some false :=
  ⟨rfl, by decide⟩

/-- C9 amended: `saveMessage` writes `favorite: false`, while
`saveImageMessage` writes no favorite field at all — both at creation and
after the image-URL update — leaving a field that is absent and merely
treated as falsy by the UI. -/
theorem c9_favorite_default (userName picUrl messageText publicImageUrl
    storagePath : String) (serverTs : Nat) :
    (saveMessageData userName picUrl messageText serverTs).favorite = some false ∧
    (saveImageMessageData userName picUrl serverTs).favorite = none ∧
    (saveImageMessageFinalData userName picUrl publicImageUrl storagePath
      serverTs).favorite = none ∧
    favTruthy (saveImageMessageData userName picUrl serverTs).favorite = false :=
  ⟨rfl, rfl, rfl, rfl⟩

/-- C10: evicting an identifier that is not rendered is a total no-op, and on
duplicate-free rendered lists eviction is idempotent. -/
theorem c10_deleteMessage_noop (id : String) (l : List RenderedEntry) :
    (id ∉ entryIds l → deleteMessage id l = l) ∧
    ((entryIds l).Nodup →
      deleteMessage id (deleteMessage id l) = deleteMessage id l) :=
  ⟨deleteMessage_not_mem id l,
   fun hnd => deleteMessage_not_mem id (deleteMessage id l)
     (deleteMessage_id_not_mem id l hnd)⟩

/-- C10 witness: deleting an absent identifier leaves the list unchanged. -/
theorem c10_deleteMessage_noop_witness :
    "zzz" ∉ entryIds [exGoodEntry] ∧
    deleteMessage "zzz" [exGoodEntry] = [exGoodEntry] :=
  ⟨by decide, (c10_deleteMessage_noop "zzz" [exGoodEntry]).1 (by decide)⟩

theorem integrateDeltas_nodup_aux (now : Nat) :
    ∀ (ds : List LiveDelta) (r r' : List RenderedEntry), (entryIds r).Nodup →
      integrateDeltas now r ds = .ok r' → (entryIds r').Nodup
  | [], r, r', hnd, h => by
    simp only [integrateDeltas] at h
    injection h with h
    subst h
    exact hnd
  | d :: rest, r, r', hnd, h => by
    simp only [integrateDeltas] at h
    cases hstep : integrateLiveDelta now r d with
    | error m => rw [hstep] at h; simp at h
    | ok r1 =>
      rw [hstep] at h
      refine integrateDeltas_nodup_aux now rest r1 r' ?_ h
      cases d with
      | removed id =>
        have hdel : deleteMessage id r = r1 := by
          simp only [integrateLiveDelta] at hstep
          injection hstep
        rw [← hdel]
        exact hnd.sublist ((deleteMessage_sublist id r).map RenderedEntry.id)
      | added id m =>
        have hperm := displayMessage_ids now id m.timestamp m.name m.text
          m.profilePicUrl m.imageUrl m.favorite r r1 hstep
        by_cases hmem : id ∈ entryIds r
        · rw [if_pos hmem] at hperm
          exact hnd.perm hperm.symm
        · rw [if_neg hmem] at hperm
          exact (List.nodup_cons.mpr ⟨hmem, hnd⟩).perm hperm.symm
      | modified id m =>
        have hperm := displayMessage_ids now id m.timestamp m.name m.text
          m.profilePicUrl m.imageUrl m.favorite r r1 hstep
        by_cases hmem : id ∈ entryIds r
        · rw [if_pos hmem] at hperm
          exact hnd.perm hperm.symm
        · rw [if_neg hmem] at hperm
          exact (List.nodup_cons.mpr ⟨hmem, hnd⟩).perm hperm.symm

/-- C5: starting from the empty rendered list, any sequence of live deltas
integrated through the snapshot listener leaves the rendered list free of
duplicate identifiers; moreover an added (or modified) delta for an
identifier that is already rendered mutates the existing entry in place,
leaving the identifier sequence exactly unchanged. -/
theorem c5_no_duplicate_ids (now : Nat) :
    (∀ (ds : List LiveDelta) (r' : List RenderedEntry),
      integrateDeltas now [] ds = .ok r' → (entryIds r').Nodup) ∧
    (∀ (r : List RenderedEntry) (id : String) (m : MessageData)
      (r' : List RenderedEntry), id ∈ entryIds r →
      integrateLiveDelta now r (LiveDelta.added id m) = .ok r' →
      entryIds r' = entryIds r) := by
  constructor
  · intro ds r' h
    exact integrateDeltas_nodup_aux now ds [] r' (by simp [entryIds]) h
  · intro r id m r' hmem h
    have hany : (r.any fun e => e.id == id) = true := any_id_iff.mpr hmem
    simp only [integrateLiveDelta, displayMessage, hany, if_true] at h
    injection h with h
    subst h
    exact updateFirst_entryIds id _
      (fun e => updateContent_id m.name m.text m.profilePicUrl m.imageUrl
        m.favorite e) r

/-- C5 witness: a concrete delta sequence with a duplicate-id upsert and a
removal yields a duplicate-free rendered list. -/
theorem c5_no_duplicate_ids_witness :
    integrateDeltas 0 [] exDeltas = .ok exDeltasResult ∧
    (entryIds exDeltasResult).Nodup :=
  ⟨rfl, (c5_no_duplicate_ids 0).1 exDeltas exDeltasResult rfl⟩

theorem fetchedPage_spec (s : AppState) (k : Nat)
    (hnd : (docIds s.store).Nodup)
    (hinv : s.arrayLoadedMessages = (s.store.drop 3).take k) :
    fetchedPage s =
      ((s.store.drop 3).drop (min k (s.store.drop 3).length)).take 5 := by
  by_cases hempty : s.arrayLoadedMessages = []
  · have hlen : s.arrayLoadedMessages.length = 0 := by rw [hempty]; rfl
    have htk : (s.store.drop 3).take k = [] := hinv.symm.trans hempty
    have hmin : min k (s.store.drop 3).length = 0 := by
      rcases List.take_eq_nil_iff.mp htk with h0 | h0
      · simp [h0]
      · simp [h0]
    by_cases hsnil : s.store = []
    · simp [fetchedPage, currentCursor, hlen, getFirstMessage, hsnil, lastElem, hmin]
    · have hne3 : s.store.take 3 ≠ [] := by
        intro h3
        rcases List.take_eq_nil_iff.mp h3 with h0 | h0
        · exact absurd h0 (by decide)
        · exact hsnil h0
      obtain ⟨c, hc⟩ := lastElem_isSome (s.store.take 3) hne3
      have hstart := startAfter_lastElem_take s.store 3 c hnd hc
      have hcursor : currentCursor s = some c := by
        simp [currentCursor, hlen, getFirstMessage, hc]
      simp only [fetchedPage, hcursor, getPreviousFiveMessages]
      rw [hstart, drop_min_length, hmin, List.drop_zero]
  · have hlen : ¬ s.arrayLoadedMessages.length = 0 :=
      fun h0 => hempty (List.length_eq_zero.mp h0)
    obtain ⟨c, hc⟩ := lastElem_isSome s.arrayLoadedMessages hempty
    have hcursor : currentCursor s = some c := by
      simp [currentCursor, hlen, hc]
    rw [hinv] at hc
    have hndL : (docIds (s.store.drop 3)).Nodup :=
      hnd.sublist ((List.drop_sublist 3 s.store).map StoredDoc.id)
    have hstartL := startAfter_lastElem_take (s.store.drop 3) k c hndL hc
    have hcmem : c ∈ s.store.drop 3 :=
      List.take_subset k _ (lastElem_mem _ _ hc)
    have hnotp : ∀ x ∈ s.store.take 3, x.id ≠ c.id := by
      intro x hx he
      have hsplit : docIds s.store =
          docIds (s.store.take 3) ++ docIds (s.store.drop 3) := by
        rw [docIds, docIds, docIds, ← List.map_append, List.take_append_drop]
      have hdisj := List.disjoint_of_nodup_append (hsplit ▸ hnd)
      exact hdisj (List.mem_map_of_mem StoredDoc.id hx)
        (he ▸ List.mem_map_of_mem StoredDoc.id hcmem)
    have hsw : startAfterDoc c.id s.store = startAfterDoc c.id (s.store.drop 3) := by
      conv_lhs => rw [← List.take_append_drop 3 s.store]
      exact startAfterDoc_append c.id _ _ hnotp
    simp only [fetchedPage, hcursor, getPreviousFiveMessages]
    rw [hsw, hstartL]

/-- C4: on a duplicate-free store, whenever the pagination history is a
prefix-aligned chunk of the records below the initial three-message window
(as `appendOlderPage` maintains by appending each fetched page to the
tail), `loadPreviousFiveMessages` succeeds, re-establishes that shape of
the history, and the page it fetches below the oldest loaded record shares
no identifier with the already-loaded records (the initial window plus the
pagination history): the cursor strictly descends and nothing is fetched
twice. -/
theorem c4_pagination_no_refetch (now : Nat) (s : AppState) (k : Nat)
    (hsig : s.signedIn = true)
    (hnd : (docIds s.store).Nodup)
    (hinv : s.arrayLoadedMessages = (s.store.drop 3).take k)
    (hr : allTsSome s.rendered) :
    ∃ s', loadPreviousFiveMessages now s = .ok s' ∧ s'.store = s.store ∧
      (∃ k', s'.arrayLoadedMessages = (s'.store.drop 3).take k') ∧
      ∀ d ∈ fetchedPage s,
        d.id ∉ docIds (s.store.take 3 ++ s.arrayLoadedMessages) := by
  have hpage := fetchedPage_spec s k hnd hinv
  have harr : s.arrayLoadedMessages =
      (s.store.drop 3).take (min k (s.store.drop 3).length) :=
    hinv.trans (take_min_length k (s.store.drop 3)).symm
  have hdisjoint : ∀ d ∈ fetchedPage s,
      d.id ∉ docIds (s.store.take 3 ++ s.arrayLoadedMessages) := by
    intro d hd hmem
    rw [hpage] at hd
    have hdmem : d ∈ (s.store.drop 3).drop (min k (s.store.drop 3).length) :=
      List.take_subset 5 _ hd
    have hsplit : docIds s.store =
        (docIds (s.store.take 3) ++
          docIds ((s.store.drop 3).take (min k (s.store.drop 3).length))) ++
          docIds ((s.store.drop 3).drop (min k (s.store.drop 3).length)) := by
      rw [docIds, docIds, docIds, docIds, ← List.map_append, ← List.map_append]
      rw [List.append_assoc, List.take_append_drop, List.take_append_drop]
    have hdisj := List.disjoint_of_nodup_append (hsplit ▸ hnd)
    rw [harr] at hmem
    have hmem2 : d.id ∈ docIds (s.store.take 3) ++
        docIds ((s.store.drop 3).take (min k (s.store.drop 3).length)) := by
      rw [docIds, List.map_append] at hmem
      exact hmem
    exact hdisj hmem2 (List.mem_map_of_mem StoredDoc.id hdmem)
  cases hstore : noMessages s.store with
  | true =>
    have heq : loadPreviousFiveMessages now s = .ok s := by
      simp [loadPreviousFiveMessages, hsig, hstore]
    exact ⟨s, heq, rfl, ⟨k, hinv⟩, hdisjoint⟩
  | false =>
    obtain ⟨s', heq, _, hstoreeq, _, harr', _, _⟩ :=
      integratePage_ok now (fetchedPage s) s hr
    refine ⟨s', ?_, hstoreeq, ?_, hdisjoint⟩
    · simp only [loadPreviousFiveMessages, hsig, Bool.not_true, Bool.false_eq_true,
        if_false, hstore]
      exact heq
    · refine ⟨min k (s.store.drop 3).length + 5, ?_⟩
      rw [hstoreeq, harr', harr, hpage, List.take_add]

/-- C4 witness: a fresh five-message store, nothing loaded yet; the first
pagination call fetches only identifiers outside the initial window and
re-establishes the history invariant. -/
theorem c4_pagination_no_refetch_witness :
    exStateFive.signedIn = true ∧ (docIds exStateFive.store).Nodup ∧
    exStateFive.arrayLoadedMessages = (exStateFive.store.drop 3).take 0 ∧
    allTsSome exStateFive.rendered ∧
    ∃ s', loadPreviousFiveMessages 0 exStateFive = .ok s' ∧
      s'.store = exStateFive.store ∧
      (∃ k', s'.arrayLoadedMessages = (s'.store.drop 3).take k') ∧
      ∀ d ∈ fetchedPage exStateFive,
        d.id ∉ docIds (exStateFive.store.take 3 ++ exStateFive.arrayLoadedMessages) :=
  ⟨rfl, by decide, rfl, by decide,
   c4_pagination_no_refetch 0 exStateFive 0 rfl (by decide) rfl (by decide)⟩

/-- C1 counterexample: with five messages in the store and no page loaded
yet, the pagination loop iterates the fetched array in index order, i.e.
over `[m4 (ts 70), m5 (ts 60)]` — a newest-first sequence, not the
oldest-to-newest processing order the claim asserts. -/
theorem c1_counterexample :
    fetchedPage exStateFive =
      [mkDoc "m4" 70 (some false), mkDoc "m5" 60 (some false)] ∧
    ¬ pageOldestToNewest (fetchedPage exStateFive) :=
  ⟨rfl, by decide⟩

/-- C1 amended: the page fetched by `loadPreviousFiveMessages` is processed
in the order the descending query returned it — newest-to-oldest, not
oldest-to-newest — and the final ascending visual order is nevertheless
preserved, because every record is inserted at its timestamp-computed
position. -/
theorem c1_page_processed_newest_first (now : Nat) (s : AppState)
    (hsig : s.signedIn = true)
    (hdesc : pageNewestToOldest s.store)
    (hrs : allTsSome s.rendered)
    (hasc : renderedAscending s.rendered) :
    pageNewestToOldest (fetchedPage s) ∧
    ∃ s', loadPreviousFiveMessages now s = .ok s' ∧
      renderedAscending s'.rendered := by
  constructor
  · cases hc : currentCursor s with
    | none =>
      have hfp : fetchedPage s = [] := by simp [fetchedPage, hc]
      rw [hfp]
      exact List.Pairwise.nil
    | some c =>
      have hfp : fetchedPage s = (startAfterDoc c.id s.store).take 5 := by
        simp [fetchedPage, hc, getPreviousFiveMessages]
      rw [hfp]
      exact hdesc.sublist
        ((List.take_sublist 5 _).trans (startAfterDoc_sublist c.id s.store))
  · cases hnm : noMessages s.store with
    | true =>
      refine ⟨s, ?_, hasc⟩
      simp [loadPreviousFiveMessages, hsig, hnm]
    | false =>
      obtain ⟨s', heq, _, _, _, _, _, haximp⟩ :=
        integratePage_ok now (fetchedPage s) s hrs
      refine ⟨s', ?_, haximp hasc⟩
      simp only [loadPreviousFiveMessages, hsig, Bool.not_true, Bool.false_eq_true,
        if_false, hnm]
      exact heq

/-- C1 amended witness: on the five-message store the fetched page is
newest-to-oldest and the rendered list stays ascending. -/
theorem c1_page_processed_newest_first_witness :
    exStateFive.signedIn = true ∧ pageNewestToOldest exStateFive.store ∧
    allTsSome exStateFive.rendered ∧ renderedAscending exStateFive.rendered ∧
    (pageNewestToOldest (fetchedPage exStateFive) ∧
      ∃ s', loadPreviousFiveMessages 0 exStateFive = .ok s' ∧
        renderedAscending s'.rendered) :=
  ⟨rfl, by decide, by decide, by decide,
   c1_page_processed_newest_first 0 exStateFive rfl (by decide) (by decide)
     (by decide)⟩

/-- C3 counterexample: favorites projection active, authenticated session,
one message in the store, zero favorited records — the projection toggle
refuses the transition: it returns with the state (projection flag and
rendered list included) completely unchanged, instead of unconditionally
clearing and reloading. -/
theorem c3_counterexample :
    exNoFavState.signedIn = true ∧
    exNoFavState.displayFavorites = true ∧
    exNoFavState.store ≠ [] ∧
    noFavoriteMessages exNoFavState.store = true ∧
    exNoFavState.rendered ≠ [] ∧
    displayMessages 0 exNoFavState = .ok exNoFavState :=
  ⟨rfl, rfl, by decide, rfl, by decide, rfl⟩

/-- C3 amended: the projection toggle checks the favorites-existence guard
on every invocation, regardless of direction: while in FAVORITES_ONLY with
an authenticated session, the toggle aborts with the state unchanged when
zero favorited records exist, and only when at least one favorited record
exists does it clear the rendered entries and reload the full all-messages
view, setting the projection state to ALL. -/
theorem c3_toggle_guarded (now : Nat) (s : AppState) (hsig : s.signedIn = true)
    (hdf : s.displayFavorites = true) :
    (noFavoriteMessages s.store = true → displayMessages now s = .ok s) ∧
    (noFavoriteMessages s.store = false → allTsSome s.rendered →
      ∃ s', displayMessages now s = .ok s' ∧ s'.displayFavorites = false ∧
        s'.store = s.store ∧ ∀ d ∈ s.store, d.id ∈ entryIds s'.rendered) := by
  constructor
  · intro hfav
    simp [displayMessages, hsig, hfav]
  · intro hfav hrs
    have hcleared : allTsSome (deleteAllDocsFromGUI s.store s.rendered) :=
      allTsSome_sublist (deleteAllDocsFromGUI_sublist s.store s.rendered) hrs
    obtain ⟨r1, hr1, _, _, hdocs, _⟩ :=
      renderDocs_ok now s.store (deleteAllDocsFromGUI s.store s.rendered) hcleared
    refine ⟨{ s with rendered := r1, displayFavorites := false }, ?_, rfl, rfl, ?_⟩
    · simp only [displayMessages, hsig, hfav, hdf, Bool.not_true, Bool.false_eq_true,
        if_false, hr1]
    · intro d hd
      exact hdocs d hd

/-- C3 amended witness: with one favorited record present, the toggle does
transition to ALL and renders every store document. -/
theorem c3_toggle_guarded_witness :
    exMixedFavState.signedIn = true ∧ exMixedFavState.displayFavorites = true ∧
    noFavoriteMessages exMixedFavState.store = false ∧
    allTsSome exMixedFavState.rendered ∧
    ∃ s', displayMessages 0 exMixedFavState = .ok s' ∧
      s'.displayFavorites = false ∧ s'.store = exMixedFavState.store ∧
      ∀ d ∈ exMixedFavState.store, d.id ∈ entryIds s'.rendered :=
  ⟨rfl, rfl, rfl, by decide,
   (c3_toggle_guarded 0 exMixedFavState rfl rfl).2 rfl (by decide)⟩

theorem noFavorite_after_clearing_unique (store : List StoredDoc)
    (messageId : String)
    (huniq : ∀ d ∈ store, favTruthy d.data.favorite = true → d.id = messageId) :
    noFavoriteMessages (updateFavoriteInStore store messageId false) = true := by
  unfold noFavoriteMessages favoriteDocs
  rw [List.isEmpty_iff, List.filter_eq_nil_iff]
  intro d hd
  unfold updateFavoriteInStore at hd
  rw [List.mem_map] at hd
  obtain ⟨d0, hd0, hupd⟩ := hd
  by_cases hid : d0.id = messageId
  · rw [if_pos hid] at hupd
    subst hupd
    simp [favTruthy]
  · rw [if_neg hid] at hupd
    subst hupd
    intro hft
    exact hid (huniq d0 hd0 hft)

/-- C2 counterexample: favorites projection active, a single favorited
record; clearing its favorite flag through the per-record toggle leaves the
controller's projection flag at FAVORITES_ONLY (true) — the code renders
the all-messages view but never assigns `displayFavorites = false`, so the
projection state does not become ALL as the claim asserts. -/
theorem c2_counterexample :
    (highlightMessage 0 "m1" exFavState).toOption.map AppState.displayFavorites ≠
      some false ∧
    (highlightMessage 0 "m1" exFavState).toOption.map AppState.displayFavorites =
      some true :=
  ⟨by decide, by decide⟩

/-- C2 amended: while the favorites projection is active, clearing the
favorite flag of the only favorited record through the per-record toggle
empties the favorited set and renders the all-messages view (every store
document becomes visible), but the controller's projection flag remains
FAVORITES_ONLY — only the visible set becomes ALL, the projection state
does not. -/
theorem c2_last_favorite_cleared (now : Nat) (messageId : String) (s : AppState)
    (docSnap : StoredDoc)
    (hsig : s.signedIn = true)
    (hdf : s.displayFavorites = true)
    (hfind : s.store.find? (fun d => d.id == messageId) = some docSnap)
    (hfavd : favTruthy docSnap.data.favorite = true)
    (huniq : ∀ d ∈ s.store, favTruthy d.data.favorite = true → d.id = messageId)
    (hrs : allTsSome s.rendered) :
    ∃ s', highlightMessage now messageId s = .ok s' ∧
      s'.displayFavorites = true ∧
      s'.store = updateFavoriteInStore s.store messageId false ∧
      noFavoriteMessages s'.store = true ∧
      ∀ d ∈ s'.store, d.id ∈ entryIds s'.rendered := by
  have hnofav : noFavoriteMessages (updateFavoriteInStore s.store messageId false) =
      true := noFavorite_after_clearing_unique s.store messageId huniq
  have hfavdocs : favoriteDocs (updateFavoriteInStore s.store messageId false) = [] := by
    have h1 := hnofav
    unfold noFavoriteMessages at h1
    exact List.isEmpty_iff.mp h1
  have hrs1 : allTsSome
      (updateFirst messageId (fun e => { e with favoriteStar := false }) s.rendered) :=
    updateFirst_allTsSome messageId (fun e => { e with favoriteStar := false })
      (fun _ => rfl) s.rendered hrs
  have hrs2 : allTsSome (deleteAllDocsFromGUI
      (updateFavoriteInStore s.store messageId false)
      (updateFirst messageId (fun e => { e with favoriteStar := false }) s.rendered)) :=
    allTsSome_sublist (deleteAllDocsFromGUI_sublist _ _) hrs1
  obtain ⟨r3, hr3, _, _, hdocs3, _⟩ :=
    renderDocs_ok now (updateFavoriteInStore s.store messageId false)
      (deleteAllDocsFromGUI (updateFavoriteInStore s.store messageId false)
        (updateFirst messageId (fun e => { e with favoriteStar := false }) s.rendered))
      hrs2
  refine ⟨{ s with
      rendered := r3, store := updateFavoriteInStore s.store messageId false },
    ?_, hdf, rfl, hnofav, ?_⟩
  · simp only [highlightMessage, hsig, Bool.not_true, Bool.false_eq_true, if_false,
      hfind, hfavd, hdf, if_true, hfavdocs, renderDocs, hnofav, hr3]
  · intro d hd
    exact hdocs3 d hd

/-- C2 amended witness: one favorited record, projection active; after the
toggle the store has no favorites, every record is visible, and the
projection flag is still FAVORITES_ONLY. -/
theorem c2_last_favorite_cleared_witness :
    exFavState.signedIn = true ∧ exFavState.displayFavorites = true ∧
    exFavState.store.find? (fun d => d.id == "m1") =
      some (mkDoc "m1" 100 (some true)) ∧
    favTruthy (mkDoc "m1" 100 (some true)).data.favorite = true ∧
    (∀ d ∈ exFavState.store, favTruthy d.data.favorite = true → d.id = "m1") ∧
    allTsSome exFavState.rendered ∧
    ∃ s', highlightMessage 0 "m1" exFavState = .ok s' ∧
      s'.displayFavorites = true ∧
      s'.store = updateFavoriteInStore exFavState.store "m1" false ∧
      noFavoriteMessages s'.store = true ∧
      ∀ d ∈ s'.store, d.id ∈ entryIds s'.rendered :=
  ⟨rfl, rfl, rfl, rfl, by decide, by decide,
   c2_last_favorite_cleared 0 "m1" exFavState (mkDoc "m1" 100 (some true))
     rfl rfl rfl rfl (by decide) (by decide)⟩
